import Mathlib

/-!
Verification development for the SICK TiM561 lidar module (`lidar.py`).

The Python source is shallowly embedded as follows:
* byte strings become `List Nat` (each entry one byte value 0..255);
* Python exceptions (`IndexError`, `ValueError`, `UnicodeDecodeError`,
  `TypeError`) become an `Except PyErr` result;
* Python floats become exact rationals `ℚ` (the module only divides
  integers by `1000`, compares against the bounds `0.1`/`3`, and slices
  lists, so the rational model captures the value-level behavior);
* the stream generators become functions on finite byte lists.
-/

/-- Errors the embedded Python code can raise. -/
inductive PyErr : Type
  | indexError : PyErr
  | valueError : PyErr
  | unicodeDecodeError : PyErr
  | typeError : PyErr
deriving DecidableEq, Repr

/-- Value of one ASCII decimal digit byte, `none` if the byte is not a digit. -/
def decDigit? (c : Nat) : Option Nat :=
  if 48 ≤ c ∧ c ≤ 57 then some (c - 48) else none

/-- Value of one ASCII hexadecimal digit byte (`0-9`, `a-f`, `A-F`). -/
def hexDigit? (c : Nat) : Option Nat :=
  if 48 ≤ c ∧ c ≤ 57 then some (c - 48)
  else if 97 ≤ c ∧ c ≤ 102 then some (c - 87)
  else if 65 ≤ c ∧ c ≤ 70 then some (c - 55)
  else none

/-- Accumulate the value of a digit string left to right; `none` on the first
byte that is not a digit of the given kind. -/
def digitsValAux (digit? : Nat → Option Nat) (base : Nat) (acc : Nat) :
    List Nat → Option Nat
  | [] => some acc
  | c :: rest =>
    match digit? c with
    | some d => digitsValAux digit? base (base * acc + d) rest
    | none => none

/-- Value of a nonempty string of decimal digits (no sign); `none` otherwise. -/
def decDigitsVal (s : List Nat) : Option Nat :=
  match s with
  | [] => none
  | _ :: _ => digitsValAux decDigit? 10 0 s

/-- Value of a nonempty string of hexadecimal digits (no sign); `none` otherwise. -/
def hexDigitsVal (s : List Nat) : Option Nat :=
  match s with
  | [] => none
  | _ :: _ => digitsValAux hexDigit? 16 0 s

/-- The ASCII whitespace bytes CPython's `int()` strips around a numeral:
tab, newline, vertical tab, form feed, carriage return and space. -/
def isPySpace (c : Nat) : Bool :=
  c == 32 || c == 9 || c == 10 || c == 11 || c == 12 || c == 13

/-- Drop leading ASCII whitespace. -/
def dropPySpace : List Nat → List Nat
  | [] => []
  | c :: rest => if isPySpace c then dropPySpace rest else c :: rest

/-- Continue a CPython digit run after its first digit (whose value is in
`acc`): further digits extend the value, a single underscore is allowed
between digits (PEP 515; doubled, trailing or digit-less underscores are
errors, returned as `none`), and the first other byte stops the run,
returning the value and the unconsumed remainder. -/
def usDigitsAux (digit? : Nat → Option Nat) (base : Nat) (acc : Nat) :
    List Nat → Option (Nat × List Nat)
  | [] => some (acc, [])
  | c :: rest =>
    match digit? c with
    | some d => usDigitsAux digit? base (base * acc + d) rest
    | none =>
      if c = 95 then
        match rest with
        | [] => none
        | c2 :: rest2 =>
          match digit? c2 with
          | some d2 => usDigitsAux digit? base (base * acc + d2) rest2
          | none => none
      else
        some (acc, c :: rest)

/-- A CPython digit run: at least one digit, then `usDigitsAux`. -/
def pyDigits (digit? : Nat → Option Nat) (base : Nat) (s : List Nat) :
    Option (Nat × List Nat) :=
  match s with
  | [] => none
  | c :: rest =>
    match digit? c with
    | none => none
    | some d => usDigitsAux digit? base d rest

/-- Remove an optional `0x`/`0X` base prefix, together with the single
underscore CPython permits directly after the prefix. -/
def stripHexPrefix (s : List Nat) : List Nat :=
  match s with
  | c0 :: c1 :: rest =>
    if c0 = 48 ∧ (c1 = 120 ∨ c1 = 88) then
      match rest with
      | c2 :: rest2 => if c2 = 95 then rest2 else rest
      | [] => rest
    else s
  | _ => s

/-- The magnitude part of a CPython `int()` parse, after sign removal: an
optional base prefix when `allowPrefix` is set, a digit run, and then only
trailing whitespace may remain. -/
def pyIntMag (digit? : Nat → Option Nat) (base : Nat) (allowPrefix : Bool)
    (s : List Nat) : Option Nat :=
  match pyDigits digit? base (if allowPrefix then stripHexPrefix s else s) with
  | none => none
  | some (v, rest) => if rest.all isPySpace then some v else none

/-- The sign dispatch of a CPython `int()` parse (whitespace already
stripped): an optional single leading `+`/`-` applied to the magnitude. -/
def pyIntSigned (digit? : Nat → Option Nat) (base : Nat) (allowPrefix : Bool) :
    List Nat → Option Int
  | [] => none
  | c :: rest =>
    if c = 43 then (pyIntMag digit? base allowPrefix rest).map (fun n : Nat => (n : Int))
    else if c = 45 then (pyIntMag digit? base allowPrefix rest).map (fun n : Nat => -(n : Int))
    else (pyIntMag digit? base allowPrefix (c :: rest)).map (fun n : Nat => (n : Int))

/-- A full CPython `int()` parse: strip leading whitespace, then sign and
magnitude (trailing whitespace is absorbed by `pyIntMag`). -/
def pyIntParse (digit? : Nat → Option Nat) (base : Nat) (allowPrefix : Bool)
    (s : List Nat) : Option Int :=
  pyIntSigned digit? base allowPrefix (dropPySpace s)

/-- Python `int(s)` on a byte token: surrounding ASCII whitespace, an
optional sign, decimal digits with single underscores permitted between
digits.  `none` models `ValueError`. -/
def intParse10 (s : List Nat) : Option Int :=
  pyIntParse decDigit? 10 false s

/-- Python `int(s, 16)` on a byte token: like `intParse10` with hexadecimal
digits, plus an optional `0x`/`0X` prefix between the sign and the digits
(an underscore is also permitted directly after the prefix). -/
def intParse16 (s : List Nat) : Option Int :=
  pyIntParse hexDigit? 16 true s

/-- `parse_number` from `lidar.py`: if the token contains a `+` or `-` byte
anywhere (`b'+' in nbr_str or b'-' in nbr_str`), parse it as a decimal
integer, otherwise parse it as a base-16 integer. -/
def parse_number (s : List Nat) : Option Int :=
  if 43 ∈ s ∨ 45 ∈ s then intParse10 s else intParse16 s

/-- Modelled from the spec's words: "the unsigned base-16 integer parsed from
its token" — a nonempty all-hex-digit token with no sign byte. -/
def unsignedHexVal (s : List Nat) : Option Nat :=
  hexDigitsVal s

/-- Modelled from the spec's words (§4.2 step 2): decode a numeric token "by
inspecting for a leading `+` or `-` sign byte: if present, parse as signed
base-10; otherwise parse as unsigned base-16".  Comparison definition for the
refinement claim about `parse_number`. -/
def parse_number_leading (s : List Nat) : Option Int :=
  match s with
  | [] => (unsignedHexVal []).map (fun n : Nat => (n : Int))
  | c :: rest =>
    if c = 43 ∨ c = 45 then intParse10 (c :: rest)
    else (unsignedHexVal (c :: rest)).map (fun n : Nat => (n : Int))

/-- Modelled from the spec's words (§6): the protocol's numeral grammar —
"signed tokens begin with `+`/`-` and are base-10; all others are base-16",
i.e. a leading sign followed by decimal digits, or a nonempty unsigned
base-16 numeral. -/
def protocolNumeral (s : List Nat) : Bool :=
  match s with
  | [] => false
  | c :: rest =>
    if c = 43 ∨ c = 45 then (decDigitsVal rest).isSome
    else (hexDigitsVal s).isSome

/-- Python `datagram.split(b' ')`: split on every single space byte, keeping
empty tokens (so the result is always nonempty). -/
def splitOnSpace : List Nat → List (List Nat)
  | [] => [[]]
  | c :: rest =>
    if c = 32 then [] :: splitOnSpace rest
    else
      match splitOnSpace rest with
      | [] => [[c]]
      | t :: ts => (c :: t) :: ts

/-- Python `items[i]` for a literal nonnegative index: `IndexError` when out
of range. -/
def getItem {α : Type} (l : List α) (i : Nat) : Except PyErr α :=
  match l[i]? with
  | some x => Except.ok x
  | none => Except.error PyErr.indexError

/-- Python `token.decode('ascii')`: succeeds exactly when every byte is below
128; we keep the bytes themselves as the decoded string. -/
def asciiDecode (s : List Nat) : Except PyErr (List Nat) :=
  if s.all (fun c => c < 128) then Except.ok s else Except.error PyErr.unicodeDecodeError

/-- Python slice index resolution: clamp a possibly negative index into
`0..len`. -/
def pyIdx (len : Nat) (i : Int) : Nat :=
  if i < 0 then ((len : Int) + i).toNat else min i.toNat len

/-- Python `l[a:b]` for integer slice endpoints. -/
def pySlice {α : Type} (l : List α) (a b : Int) : List α :=
  (l.take (pyIdx l.length b)).drop (pyIdx l.length a)

/-- Python list comprehension `[f(x) for x in l]` where `f` may raise: the
first raised error aborts the whole comprehension. -/
def mapME {α : Type} : List (List Nat) → (List Nat → Except PyErr α) → Except PyErr (List α)
  | [], _ => Except.ok []
  | x :: xs, f =>
    match f x with
    | Except.error e => Except.error e
    | Except.ok y =>
      match mapME xs f with
      | Except.error e => Except.error e
      | Except.ok ys => Except.ok (y :: ys)

/-- The decoded header dictionary built by `decode_datagram` (its keys, in
source order). -/
structure Header : Type where
  TypeOfCommand : List Nat
  Command : List Nat
  VersionNumber : Int
  DeviceNumber : Int
  SerialNumber : List Nat
  DeviceStatus1 : Int
  DeviceStatus2 : Int
  TelegramCounter : Int
  TimeSinceStartup : Int
  TimeOfTransmission : Int
  AngularStepWidth : Int
  NumberOfData : Int
  Data : List ℚ
deriving DecidableEq, Repr

/-- The bytes of `'sSN'`. -/
def sSNBytes : List Nat := [115, 83, 78]

/-- The bytes of `'LMDscandata'`. -/
def LMDscandataBytes : List Nat := [76, 77, 68, 115, 99, 97, 110, 100, 97, 116, 97]

/-- `parse_number` with Python's `ValueError` made explicit. -/
def parseNumberE (s : List Nat) : Except PyErr Int :=
  match parse_number s with
  | some n => Except.ok n
  | none => Except.error PyErr.valueError

/-- One entry of the comprehension `parse_number(x) / 1000` (line 99), with
true (non-integer) division into `ℚ`. -/
def sampleValue (tok : List Nat) : Except PyErr ℚ :=
  match parse_number tok with
  | some n => Except.ok ((n : ℚ) / 1000)
  | none => Except.error PyErr.valueError

/-- Lines 85-99 of `decode_datagram`: split the frame on spaces and populate
every header field in source order; any `IndexError`, `UnicodeDecodeError` or
`ValueError` propagates.  `items[26:26+NumberOfData]` is a clamping Python
slice. -/
def decodeHeaderFields (datagram : List Nat) : Except PyErr Header := do
  let items := splitOnSpace datagram
  let typeOfCommand ← asciiDecode (← getItem items 0)
  let command ← asciiDecode (← getItem items 1)
  let versionNumber ← parseNumberE (← getItem items 2)
  let deviceNumber ← parseNumberE (← getItem items 3)
  let serialNumber ← asciiDecode (← getItem items 4)
  let deviceStatus1 ← parseNumberE (← getItem items 5)
  let deviceStatus2 ← parseNumberE (← getItem items 6)
  let telegramCounter ← parseNumberE (← getItem items 7)
  let timeSinceStartup ← parseNumberE (← getItem items 9)
  let timeOfTransmission ← parseNumberE (← getItem items 10)
  let angularStepWidth ← parseNumberE (← getItem items 24)
  let numberOfData ← parseNumberE (← getItem items 25)
  let data ← mapME (pySlice items 26 (26 + numberOfData)) sampleValue
  pure ⟨typeOfCommand, command, versionNumber, deviceNumber, serialNumber,
        deviceStatus1, deviceStatus2, telegramCounter, timeSinceStartup,
        timeOfTransmission, angularStepWidth, numberOfData, data⟩

/-- Lines 101-105: the validity gate.  A header is discarded (`None`) unless
the command type is `'sSN'`, the command is `'LMDscandata'` and both device
status fields are zero. -/
def applyGate (h : Header) : Option Header :=
  if h.TypeOfCommand ≠ sSNBytes ∨ h.Command ≠ LMDscandataBytes ∨
      h.DeviceStatus1 ≠ 0 ∨ h.DeviceStatus2 ≠ 0 then
    none
  else
    some h

/-- `decode_datagram` from `lidar.py`: build the header, then apply the
validity gate; `Except.ok none` is Python's `return None`. -/
def decode_datagram (datagram : List Nat) : Except PyErr (Option Header) :=
  match decodeHeaderFields datagram with
  | Except.error e => Except.error e
  | Except.ok h => Except.ok (applyGate h)

/-- State of the two nested `for` loops in `datagrams_from_socket`: the frames
yielded so far, plus `none` when we are skipping bytes while waiting for a
start delimiter (the first loop) and `some buf` when we are accumulating the
current frame (the second loop). -/
def datagramStep (st : List (List Nat) × Option (List Nat)) (b : Nat) :
    List (List Nat) × Option (List Nat) :=
  match st with
  | (acc, none) => if b = 2 then (acc, some []) else (acc, none)
  | (acc, some buf) => if b = 3 then (acc ++ [buf], none) else (acc, some (buf ++ [b]))

/-- `datagrams_from_socket` from `lidar.py`, run over a finite byte stream:
discard bytes until `STX = 0x02`, then accumulate every byte (including any
further `0x02`) until `ETX = 0x03`, yield, and repeat.  A trailing incomplete
frame is never yielded (the generator would still be blocked reading). -/
def datagrams_from_socket (stream : List Nat) : List (List Nat) :=
  (stream.foldl datagramStep ([], none)).1

/-- `self.min_distance` (line 124), 0.1 meters. -/
def min_distance : ℚ := 0.1

/-- `self.max_distance` (line 125), 3 meters. -/
def max_distance : ℚ := 3

/-- `self.datagram_size` (line 127), the sensor resolution. -/
def datagram_size : Nat := 811

/-- `self.sensor_angle` (line 128), total field of view in degrees. -/
def sensor_angle : Nat := 270

/-- `clean_datagram_by_distance` (lines 166-169): two element-wise `np.where`
passes, first replacing values not strictly above `min_d` by `-1`, then
values not strictly below `max_d` by `-1`.  Both passes build new arrays, so
the input is not mutated — in this embedding the function is pure by
construction. -/
def clean_datagram_by_distance (min_d max_d : ℚ) (ds : List ℚ) : List ℚ :=
  let ds1 := ds.map (fun v => if min_d < v then v else -1)
  ds1.map (fun v => if v < max_d then v else -1)

/-- Python `int(q)` on a float/rational: truncation toward zero. -/
def pyInt (q : ℚ) : Int :=
  if q < 0 then -(Int.floor (-q)) else Int.floor q

/-- `clean_datagram_by_angle` (lines 173-186):
`cleanArraySize = int((datagram_size/sensor_angle)*(viewAngle/2))`,
`midpoint = len(ds) // 2`, `start = midpoint - cleanArraySize // 2`, one more
decrement when `cleanArraySize` is even, and the Python slice
`ds[start:start+cleanArraySize]`.  Python `//` is floor division and `%` a
nonnegative remainder for the positive divisor `2`, i.e. `Int.fdiv` and
`Int.emod`. -/
def clean_datagram_by_angle (ds : List ℚ) (viewAngle : ℚ) : List ℚ :=
  let cleanArraySize : Int :=
    pyInt (((datagram_size : ℚ) / (sensor_angle : ℚ)) * (viewAngle / 2))
  let midpoint : Int := (ds.length : Int).fdiv 2
  let start0 : Int := midpoint - cleanArraySize.fdiv 2
  let start : Int := if cleanArraySize.emod 2 = 0 then start0 - 1 else start0
  pySlice ds start (start + cleanArraySize)

/-- The body of one iteration of `lidar.run` (lines 198-212) on one frame,
acting on the published slot `self.ds`.  The datagram is decoded; `None`
leaves the slot unchanged; for a valid record the distance filter is applied
to the decoded samples, and then line 212 executes
`self.ds = self.clean_datagram_by_angle(viewAngle=180)` — a call that omits
the method's required positional argument `ds`, so Python raises `TypeError`
before anything is published.  We embed that call as
`Except.error PyErr.typeError`; the distance-cleaned array is bound but never
consumed, exactly as in the source. -/
def run_step (ds0 : Option (List ℚ)) (datagram : List Nat) :
    Except PyErr (Option (List ℚ)) :=
  match decode_datagram datagram with
  | Except.error e => Except.error e
  | Except.ok none => Except.ok ds0
  | Except.ok (some decoded) =>
    let _ds := clean_datagram_by_distance min_distance max_distance decoded.Data
    Except.error PyErr.typeError

/-- The `while True` loop of `lidar.run` processing a finite list of frames:
`run_step` on each frame in turn, threading the published slot.  The loop has
no exception handler, so the first error aborts it (the thread dies) and the
remaining frames are never processed. -/
def run_frames : Option (List ℚ) → List (List Nat) → Except PyErr (Option (List ℚ))
  | pub, [] => Except.ok pub
  | pub, d :: rest =>
    match run_step pub d with
    | Except.error e => Except.error e
    | Except.ok pub2 => run_frames pub2 rest

/-- Modelled from the spec's words (§4.4 and C9): the requested window length
`floor((811/270) * (V/2))`. -/
def windowLength (viewAngle : ℚ) : Nat :=
  (Int.floor (((811 : ℚ) / 270) * (viewAngle / 2))).toNat

/-- Modelled from the spec's words (§4.4 and C9): `start = midpoint -
windowLength // 2`, additionally decremented by one when `windowLength` is
even (midpoint of an 811-sample array is 405). -/
def windowStart (viewAngle : ℚ) : Nat :=
  405 - windowLength viewAngle / 2 - (if windowLength viewAngle % 2 = 0 then 1 else 0)

/-- Join a token list with single space bytes (inverse of `splitOnSpace` for
space-free tokens); used to build concrete test frames. -/
def joinTokens : List (List Nat) → List Nat
  | [] => []
  | [t] => t
  | t :: rest => t ++ 32 :: joinTokens rest

/-- A well-formed scan telegram: `sSN LMDscandata`, 23 zero fields for token
indices 2..24, a declared sample count of 2 at index 25, and the two sample
tokens `A` and `B`. -/
def goodFrame : List Nat :=
  joinTokens ([sSNBytes, LMDscandataBytes] ++ List.replicate 23 [48] ++ [[50], [65], [66]])

/-- The header `decode_datagram` produces for `goodFrame` (serial number kept
as the text token `0`). -/
def goodHeader : Header :=
  ⟨sSNBytes, LMDscandataBytes, 0, 0, [48], 0, 0, 0, 0, 0, 0, 2,
   [(((10 : Nat) : Int) : ℚ) / 1000, (((11 : Nat) : Int) : ℚ) / 1000]⟩

/-- Like `goodFrame` but declaring 5 samples at index 25 while only two sample
tokens follow: Python's clamping slice silently yields just the two. -/
def shortFrame : List Nat :=
  joinTokens ([sSNBytes, LMDscandataBytes] ++ List.replicate 23 [48] ++ [[53], [65], [66]])

/-- The header `decode_datagram` produces for `shortFrame`: it declares 5 data
values but carries only 2. -/
def shortHeader : Header :=
  ⟨sSNBytes, LMDscandataBytes, 0, 0, [48], 0, 0, 0, 0, 0, 0, 5,
   [(((10 : Nat) : Int) : ℚ) / 1000, (((11 : Nat) : Int) : ℚ) / 1000]⟩

/-- A digit accumulator dies on any byte that is not a digit of its kind. -/
theorem digitsValAux_none (digit? : Nat → Option Nat) (base : Nat) (c : Nat)
    (hc : digit? c = none) :
    ∀ (l : List Nat) (acc : Nat), c ∈ l → digitsValAux digit? base acc l = none := by
  intro l
  induction l with
  | nil => intro acc h; cases h
  | cons b t ih =>
    intro acc h
    rcases List.mem_cons.mp h with h1 | h2
    · subst h1
      simp only [digitsValAux, hc]
    · simp only [digitsValAux]
      cases hb : digit? b
      · rfl
      · exact ih _ h2

/-- A token containing a sign byte is not a decimal digit string. -/
theorem decDigitsVal_sign_none (s : List Nat) (c : Nat) (hc : c = 43 ∨ c = 45)
    (hm : c ∈ s) : decDigitsVal s = none := by
  have hd : decDigit? c = none := by
    rcases hc with h | h <;> subst h <;> decide
  cases s with
  | nil => cases hm
  | cons a t => exact digitsValAux_none decDigit? 10 c hd (a :: t) 0 hm

/-- A token containing a sign byte is not a hexadecimal digit string. -/
theorem hexDigitsVal_sign_none (s : List Nat) (c : Nat) (hc : c = 43 ∨ c = 45)
    (hm : c ∈ s) : hexDigitsVal s = none := by
  have hd : hexDigit? c = none := by
    rcases hc with h | h <;> subst h <;> decide
  cases s with
  | nil => cases hm
  | cons a t => exact digitsValAux_none hexDigit? 16 c hd (a :: t) 0 hm

/-- A token with an unsigned hexadecimal value contains no sign byte. -/
theorem unsignedHexVal_no_sign (tok : List Nat) (n : Nat)
    (hn : unsignedHexVal tok = some n) : 43 ∉ tok ∧ 45 ∉ tok := by
  constructor
  · intro hm
    rw [unsignedHexVal, hexDigitsVal_sign_none tok 43 (Or.inl rfl) hm] at hn
    cases hn
  · intro hm
    rw [unsignedHexVal, hexDigitsVal_sign_none tok 45 (Or.inr rfl) hm] at hn
    cases hn

/-- The head of a successful digit fold is itself a digit. -/
theorem digitsValAux_head (digit? : Nat → Option Nat) (base acc : Nat)
    (c : Nat) (t : List Nat) (v : Nat)
    (h : digitsValAux digit? base acc (c :: t) = some v) : ∃ d, digit? c = some d := by
  simp only [digitsValAux] at h
  cases hc : digit? c with
  | none => rw [hc] at h; exact absurd h (by simp)
  | some d => exact ⟨d, rfl⟩

/-- Consuming one digit advances the CPython digit run. -/
theorem usDigitsAux_digit_step (digit? : Nat → Option Nat) (base acc c d : Nat)
    (t : List Nat) (hc : digit? c = some d) :
    usDigitsAux digit? base acc (c :: t) = usDigitsAux digit? base (base * acc + d) t := by
  cases t with
  | nil => rw [usDigitsAux.eq_2, hc]
  | cons c2 t2 => rw [usDigitsAux.eq_3, hc]

/-- On a pure digit string, the underscore-aware CPython digit run consumes
everything and computes the same value as the plain digit fold. -/
theorem usDigitsAux_total (digit? : Nat → Option Nat) (base : Nat) :
    ∀ (l : List Nat) (acc v : Nat),
      digitsValAux digit? base acc l = some v →
      usDigitsAux digit? base acc l = some (v, []) := by
  intro l
  induction l with
  | nil =>
    intro acc v h
    simp only [digitsValAux] at h
    simp only [usDigitsAux]
    rw [Option.some.inj h]
  | cons c t ih =>
    intro acc v h
    simp only [digitsValAux] at h
    cases hc : digit? c with
    | none =>
      rw [hc] at h
      exact absurd h (by simp)
    | some d =>
      rw [hc] at h
      rw [usDigitsAux_digit_step digit? base acc c d t hc]
      exact ih (base * acc + d) v h

/-- On a pure digit string, the full CPython digit run succeeds with the
plain fold's value and no remainder. -/
theorem pyDigits_total (digit? : Nat → Option Nat) (base : Nat)
    (c : Nat) (t : List Nat) (v : Nat)
    (h : digitsValAux digit? base 0 (c :: t) = some v) :
    pyDigits digit? base (c :: t) = some (v, []) := by
  simp only [digitsValAux] at h
  simp only [pyDigits]
  cases hc : digit? c with
  | none => rw [hc] at h; exact absurd h (by simp)
  | some d =>
    rw [hc] at h
    have h2 : digitsValAux digit? base (base * 0 + d) t = some v := h
    rw [show base * 0 + d = d by simp] at h2
    exact usDigitsAux_total digit? base t d v h2

/-- A hexadecimal digit byte is not whitespace, a sign or an `x`/`X`. -/
theorem hexDigit_byte_facts (c d : Nat) (h : hexDigit? c = some d) :
    isPySpace c = false ∧ c ≠ 43 ∧ c ≠ 45 ∧ c ≠ 120 ∧ c ≠ 88 := by
  have hr : (48 ≤ c ∧ c ≤ 57) ∨ (97 ≤ c ∧ c ≤ 102) ∨ (65 ≤ c ∧ c ≤ 70) := by
    unfold hexDigit? at h
    split at h
    · rename_i hx; exact Or.inl hx
    · split at h
      · rename_i hx; exact Or.inr (Or.inl hx)
      · split at h
        · rename_i hx; exact Or.inr (Or.inr hx)
        · exact absurd h (by simp)
  refine ⟨?_, by omega, by omega, by omega, by omega⟩
  simp only [isPySpace, Bool.or_eq_false_iff, beq_eq_false_iff_ne]
  omega

/-- Dropping leading whitespace does nothing when the head is not whitespace. -/
theorem dropPySpace_no_space (c : Nat) (t : List Nat) (h : isPySpace c = false) :
    dropPySpace (c :: t) = c :: t := by
  simp only [dropPySpace, h]
  simp

/-- A token starting with two hexadecimal digit bytes carries no `0x` prefix. -/
theorem stripHexPrefix_hex (c0 c1 : Nat) (t : List Nat) (d : Nat)
    (h1 : hexDigit? c1 = some d) :
    stripHexPrefix (c0 :: c1 :: t) = c0 :: c1 :: t := by
  simp only [stripHexPrefix]
  rw [if_neg]
  intro hcon
  rcases hcon.2 with h | h
  · rw [h] at h1
    cases ((by decide : hexDigit? 120 = none).symm.trans h1)
  · rw [h] at h1
    cases ((by decide : hexDigit? 88 = none).symm.trans h1)

/-- On a token that is a nonempty unsigned hexadecimal numeral,
`parse_number` takes the base-16 branch and returns exactly that numeral's
value: such a token contains no sign byte, no whitespace, no underscore and
no base prefix, so the faithful CPython parse and the plain digit fold
coincide. -/
theorem parse_number_hexnum (tok : List Nat) (n : Nat)
    (hn : hexDigitsVal tok = some n) :
    parse_number tok = some ((n : Nat) : Int) := by
  cases tok with
  | nil => exact absurd hn (by simp [hexDigitsVal])
  | cons c t =>
    have hfold : digitsValAux hexDigit? 16 0 (c :: t) = some n := hn
    obtain ⟨d, hd⟩ := digitsValAux_head hexDigit? 16 0 c t n hfold
    have hfacts := hexDigit_byte_facts c d hd
    have hns := unsignedHexVal_no_sign (c :: t) n hn
    rw [parse_number, if_neg (by
      intro hor
      rcases hor with hm | hm
      · exact hns.1 hm
      · exact hns.2 hm)]
    have hstrip : stripHexPrefix (c :: t) = c :: t := by
      cases t with
      | nil => rfl
      | cons c1 t2 =>
        have h2 : digitsValAux hexDigit? 16 (16 * 0 + d) (c1 :: t2) = some n := by
          simp only [digitsValAux] at hfold
          rw [hd] at hfold
          exact hfold
        obtain ⟨d1, hd1⟩ := digitsValAux_head hexDigit? 16 (16 * 0 + d) c1 t2 n h2
        exact stripHexPrefix_hex c c1 t2 d1 hd1
    have hmag : pyIntMag hexDigit? 16 true (c :: t) = some n := by
      simp only [pyIntMag, if_pos, hstrip]
      rw [pyDigits_total hexDigit? 16 c t n hfold]
      rfl
    simp only [intParse16, pyIntParse]
    rw [dropPySpace_no_space c t hfacts.1]
    simp only [pyIntSigned]
    rw [if_neg hfacts.2.1, if_neg hfacts.2.2.1, hmag]
    rfl

/-- C7 — counterexample to the claim as stated.  `parse_number` dispatches on
a sign byte anywhere in the token, and CPython's `int` accepts whitespace
before the sign and a `0x` prefix in base 16, so the code diverges from the
leading-sign dispatch: on `b"\t+42"` (leading byte a tab, not a sign) the
code parses decimal 42 while the leading-sign rule demands an unsigned
base-16 parse, which fails; on `b"0x1A"` (no sign anywhere) the code's
base-16 branch returns 26 while an unsigned base-16 numeral read fails on
the `x`. -/
theorem c7_counterexample_tab_and_prefix :
    parse_number [9, 43, 52, 50] = some 42
    ∧ parse_number_leading [9, 43, 52, 50] = none
    ∧ parse_number [9, 43, 52, 50] ≠ parse_number_leading [9, 43, 52, 50]
    ∧ parse_number [48, 120, 49, 65] = some 26
    ∧ parse_number_leading [48, 120, 49, 65] = none
    ∧ parse_number [48, 120, 49, 65] ≠ parse_number_leading [48, 120, 49, 65] := by
  refine ⟨by decide, by decide, by decide, by decide, by decide, by decide⟩

/-- C7 (amended) — `parse_number` dispatches on the presence of a sign byte
anywhere in the token rather than a leading one, but on every token of the
protocol's numeral grammar (an optional leading sign followed by decimal
digits, or a nonempty unsigned base-16 numeral) it agrees with the spec's
leading-sign dispatch; in particular `parse_number(b"+42") = 42` and
`parse_number(b"2A") = 42`.  Outside that grammar — whitespace before a
sign, or a `0x` prefix — the two dispatches diverge (see the
counterexample). -/
theorem c7_parse_number_dispatch_protocol :
    (∀ s : List Nat, protocolNumeral s = true → parse_number s = parse_number_leading s)
    ∧ parse_number [43, 52, 50] = some 42
    ∧ parse_number [50, 65] = some 42 := by
  refine ⟨?_, by decide, by decide⟩
  intro s hp
  cases s with
  | nil => exact absurd hp (by decide)
  | cons c rest =>
    by_cases hc : c = 43 ∨ c = 45
    · have hmem : (43 ∈ c :: rest) ∨ (45 ∈ c :: rest) := by
        rcases hc with h | h
        · exact Or.inl (by rw [h]; exact List.mem_cons_self _ _)
        · exact Or.inr (by rw [h]; exact List.mem_cons_self _ _)
      rw [parse_number, if_pos hmem, parse_number_leading, if_pos hc]
    · have hsome : (hexDigitsVal (c :: rest)).isSome = true := by
        simp only [protocolNumeral] at hp
        rw [if_neg hc] at hp
        exact hp
      obtain ⟨n, hn⟩ := Option.isSome_iff_exists.mp hsome
      rw [parse_number_hexnum (c :: rest) n hn]
      rw [parse_number_leading, if_neg hc]
      rw [unsignedHexVal, hn]
      rfl

/-- Witness for C7's amended theorem at the token `b"+42"`. -/
theorem c7_parse_number_dispatch_protocol_w :
    parse_number [43, 52, 50] = parse_number_leading [43, 52, 50] :=
  c7_parse_number_dispatch_protocol.1 [43, 52, 50] (by decide)

/-- One `datagramStep` preserves the invariant that no yielded frame and no
partially accumulated frame contains the end delimiter `0x03`. -/
theorem datagramStep_preserves (st : List (List Nat) × Option (List Nat)) (b : Nat)
    (h1 : ∀ f ∈ st.1, (3 : Nat) ∉ f)
    (h2 : ∀ buf, st.2 = some buf → (3 : Nat) ∉ buf) :
    (∀ f ∈ (datagramStep st b).1, (3 : Nat) ∉ f) ∧
    (∀ buf, (datagramStep st b).2 = some buf → (3 : Nat) ∉ buf) := by
  obtain ⟨acc, obuf⟩ := st
  cases obuf with
  | none =>
    by_cases hb : b = 2
    · simp only [datagramStep, if_pos hb]
      exact ⟨h1, by intro buf hbuf; cases hbuf; intro h3; cases h3⟩
    · simp only [datagramStep, if_neg hb]
      exact ⟨h1, by intro buf hbuf; cases hbuf⟩
  | some buf0 =>
    have hbuf0 : (3 : Nat) ∉ buf0 := h2 buf0 rfl
    by_cases hb : b = 3
    · simp only [datagramStep, if_pos hb]
      constructor
      · intro f hf
        rcases List.mem_append.mp hf with h | h
        · exact h1 f h
        · rw [List.mem_singleton.mp h]; exact hbuf0
      · intro buf hbuf; cases hbuf
    · simp only [datagramStep, if_neg hb]
      constructor
      · exact h1
      · intro buf hbuf
        cases hbuf
        intro h3
        rcases List.mem_append.mp h3 with h | h
        · exact hbuf0 h
        · exact hb (List.mem_singleton.mp h).symm

/-- Folding `datagramStep` over any byte stream keeps the no-`0x03` invariant. -/
theorem foldl_no_etx (s : List Nat) :
    ∀ (st : List (List Nat) × Option (List Nat)),
      (∀ f ∈ st.1, (3 : Nat) ∉ f) → (∀ buf, st.2 = some buf → (3 : Nat) ∉ buf) →
      ∀ f ∈ (s.foldl datagramStep st).1, (3 : Nat) ∉ f := by
  induction s with
  | nil => intro st h1 _ f hf; exact h1 f hf
  | cons b t ih =>
    intro st h1 h2
    rw [List.foldl_cons]
    have hp := datagramStep_preserves st b h1 h2
    exact ih _ hp.1 hp.2

/-- C3 — counterexample to the claim as stated: on the stream
`02 'A' 02 'B' 03` the extractor yields the single frame `['A', 0x02, 'B']`,
which does contain a `0x02` byte, because the accumulation loop only stops on
`0x03` and stores every other byte, a second start delimiter included. -/
theorem c3_counterexample_stx_in_frame :
    ¬ (∀ f ∈ datagrams_from_socket [2, 65, 2, 66, 3], (2 : Nat) ∉ f ∧ (3 : Nat) ∉ f) := by
  decide

/-- C3 (amended) — every frame yielded by `datagrams_from_socket` is free of
the end delimiter `0x03`; start delimiters `0x02` seen after the frame began
are kept in the frame, so only the `0x03` half of the claim holds. -/
theorem c3_frames_no_etx (s : List Nat) (f : List Nat)
    (hf : f ∈ datagrams_from_socket s) : (3 : Nat) ∉ f := by
  have h := foldl_no_etx s ([], none)
    (by intro f hf0; cases hf0) (by intro buf hb; cases hb)
  exact h f hf

/-- Witness for C3's amended theorem at the counterexample stream. -/
theorem c3_frames_no_etx_w : (3 : Nat) ∉ ([65, 2, 66] : List Nat) :=
  c3_frames_no_etx [2, 65, 2, 66, 3] [65, 2, 66] (by decide)

/-- C2 — the code, evaluated at the failing input: `shortFrame` passes the
validity gate and declares `NumberOfData = 5`, but only two sample tokens
follow; the clamping slice `items[26:31]` silently produces the two available
tokens and `decode_datagram` returns a record (no error) whose sample array
has length 2 ≠ 5, violating the claimed invariant and the claimed observable
failure. -/
theorem c2_truncated_record_returned :
    decode_datagram shortFrame = Except.ok (some shortHeader)
    ∧ shortHeader.NumberOfData = 5
    ∧ shortHeader.Data.length = 2 :=
  ⟨rfl, rfl, rfl⟩

/-- C4 — the code, evaluated at the failing input: an empty frame makes
`decode_datagram` raise `IndexError` at `items[1]`, and since `lidar.run` has
no exception handler the error escapes the loop: for every published state
and every list of further frames, the loop aborts with the error and the
remaining frames are never processed. -/
theorem c4_malformed_frame_halts_loop (pub : Option (List ℚ)) (rest : List (List Nat)) :
    run_frames pub ([] :: rest) = Except.error PyErr.indexError := rfl

/-- When the header fields decode, `decode_datagram` is the gate applied to
the header. -/
theorem decode_datagram_ok (d : List Nat) (h : Header)
    (hdf : decodeHeaderFields d = Except.ok h) :
    decode_datagram d = Except.ok (applyGate h) := by
  unfold decode_datagram
  rw [hdf]

/-- When the header fields fail to decode, `decode_datagram` propagates the
error. -/
theorem decode_datagram_err (d : List Nat) (e : PyErr)
    (hdf : decodeHeaderFields d = Except.error e) :
    decode_datagram d = Except.error e := by
  unfold decode_datagram
  rw [hdf]

/-- A returned record is exactly the decoded header. -/
theorem decode_ok_some (d : List Nat) (h : Header)
    (hd : decode_datagram d = Except.ok (some h)) :
    decodeHeaderFields d = Except.ok h := by
  cases hdf : decodeHeaderFields d with
  | error e =>
    rw [decode_datagram_err d e hdf] at hd
    simp at hd
  | ok h0 =>
    rw [decode_datagram_ok d h0 hdf] at hd
    have h2 : applyGate h0 = some h := Except.ok.inj hd
    unfold applyGate at h2
    split at h2
    · simp at h2
    · rw [Option.some.inj h2]

/-- C1 — the code, evaluated at the failing inputs: whenever a frame decodes
to a valid record, the loop body applies the distance filter and then dies
with `TypeError` at line 212 (`self.clean_datagram_by_angle(viewAngle=180)`
omits the required `ds` argument); nothing is ever published. -/
theorem c1_run_step_typeerror (pub : Option (List ℚ)) (d : List Nat) (h : Header)
    (hd : decode_datagram d = Except.ok (some h)) :
    run_step pub d = Except.error PyErr.typeError := by
  unfold run_step
  rw [hd]

/-- Witness for C1's theorem at the concrete valid frame. -/
theorem c1_run_step_typeerror_w :
    run_step none goodFrame = Except.error PyErr.typeError :=
  c1_run_step_typeerror none goodFrame goodHeader rfl

/-- C5 — confirmed.  For a frame whose token grid is long enough and whose
numeric tokens all parse (i.e. `decodeHeaderFields` succeeds), the decoder
returns `None` exactly when the command type is not `'sSN'`, or the command
is not `'LMDscandata'`, or either device-status field is non-zero; otherwise
it returns the fully populated record. -/
theorem c5_validity_gate (d : List Nat) (h : Header)
    (hdf : decodeHeaderFields d = Except.ok h) :
    (decode_datagram d = Except.ok none ↔
      (h.TypeOfCommand ≠ sSNBytes ∨ h.Command ≠ LMDscandataBytes ∨
       h.DeviceStatus1 ≠ 0 ∨ h.DeviceStatus2 ≠ 0))
    ∧ ((h.TypeOfCommand = sSNBytes ∧ h.Command = LMDscandataBytes ∧
        h.DeviceStatus1 = 0 ∧ h.DeviceStatus2 = 0) →
      decode_datagram d = Except.ok (some h)) := by
  rw [decode_datagram_ok d h hdf]
  unfold applyGate
  by_cases hc : h.TypeOfCommand ≠ sSNBytes ∨ h.Command ≠ LMDscandataBytes ∨
      h.DeviceStatus1 ≠ 0 ∨ h.DeviceStatus2 ≠ 0
  · rw [if_pos hc]
    refine ⟨⟨fun _ => hc, fun _ => rfl⟩, fun hcon => ?_⟩
    rcases hc with hx | hx | hx | hx
    · exact absurd hcon.1 hx
    · exact absurd hcon.2.1 hx
    · exact absurd hcon.2.2.1 hx
    · exact absurd hcon.2.2.2 hx
  · rw [if_neg hc]
    have hne : (Except.ok (some h) : Except PyErr (Option Header)) ≠ Except.ok none := by
      simp
    exact ⟨⟨fun hEq => absurd hEq hne, fun hOr => absurd hOr hc⟩, fun _ => rfl⟩

/-- Witness for C5's theorem at the concrete valid frame. -/
theorem c5_validity_gate_w :
    decode_datagram goodFrame = Except.ok (some goodHeader) :=
  (c5_validity_gate goodFrame goodHeader rfl).2 (by decide)

/-- C8 — confirmed.  The two `np.where` passes compose to the pointwise rule
"keep values strictly between the bounds, send everything else (boundary
values included) to the sentinel −1"; the output has the input's length and
the input list is untouched (the embedding is a pure function on lists).  The
spec's concrete example is included. -/
theorem c8_distance_filter :
    (∀ (mn mx : ℚ) (ds : List ℚ),
      clean_datagram_by_distance mn mx ds
        = ds.map (fun v => if mn < v ∧ v < mx then v else -1))
    ∧ (∀ (mn mx : ℚ) (ds : List ℚ),
      (clean_datagram_by_distance mn mx ds).length = ds.length)
    ∧ clean_datagram_by_distance 0.1 3 [0.05, 0.5, 1.5, 5] = [-1, 0.5, 1.5, -1] := by
  have key : ∀ (mn mx : ℚ) (ds : List ℚ),
      clean_datagram_by_distance mn mx ds
        = ds.map (fun v => if mn < v ∧ v < mx then v else -1) := by
    intro mn mx ds
    unfold clean_datagram_by_distance
    rw [List.map_map]
    congr 1
    funext v
    by_cases h1 : mn < v
    · by_cases h2 : v < mx
      · simp [Function.comp, h1, h2]
      · simp [Function.comp, h1, h2]
    · simp only [Function.comp_apply, if_neg h1]
      rw [ite_self]
      rw [if_neg (show ¬(mn < v ∧ v < mx) from fun hand => h1 hand.1)]
  refine ⟨key, fun mn mx ds => by rw [key]; exact List.length_map ds _, ?_⟩
  rw [key]
  norm_num

/-- Destructuring a successful `Except` bind. -/
theorem except_bind_ok {α β : Type} (x : Except PyErr α) (f : α → Except PyErr β) (b : β) :
    (x >>= f) = Except.ok b ↔ ∃ a, x = Except.ok a ∧ f a = Except.ok b := by
  cases x with
  | error e =>
    constructor
    · intro h; exact absurd h (by simp [Bind.bind, Except.bind])
    · rintro ⟨a, ha, _⟩; exact absurd ha (by simp)
  | ok a =>
    constructor
    · intro h; exact ⟨a, rfl, h⟩
    · rintro ⟨a2, ha2, hf⟩
      rw [← Except.ok.inj ha2] at hf
      exact hf

/-- Destructuring a successful `Except` pure. -/
theorem except_pure_ok {α : Type} (a b : α) :
    (pure a : Except PyErr α) = Except.ok b ↔ a = b := by
  constructor
  · intro h; exact Except.ok.inj h
  · intro h; rw [h]; rfl

/-- A successful `getItem` is a successful list lookup. -/
theorem getItem_ok {α : Type} (l : List α) (i : Nat) (x : α)
    (h : getItem l i = Except.ok x) : l[i]? = some x := by
  cases hx : l[i]? with
  | some y =>
    have h2 : (Except.ok y : Except PyErr α) = Except.ok x := by
      rw [← h]; unfold getItem; rw [hx]
    rw [Except.ok.inj h2]
  | none =>
    have h2 : (Except.error PyErr.indexError : Except PyErr α) = Except.ok x := by
      rw [← h]; unfold getItem; rw [hx]
    cases h2

/-- A successful `mapME` maps the length. -/
theorem mapME_ok_length {α : Type} :
    ∀ (l : List (List Nat)) (f : List Nat → Except PyErr α) (res : List α),
      mapME l f = Except.ok res → res.length = l.length := by
  intro l
  induction l with
  | nil =>
    intro f res h
    rw [← Except.ok.inj h]
    rfl
  | cons x xs ih =>
    intro f res h
    unfold mapME at h
    split at h
    · exact absurd h (by simp)
    · rename_i y hfx
      split at h
      · exact absurd h (by simp)
      · rename_i ys hm
        rw [← Except.ok.inj h]
        simp [ih f ys hm]

/-- A successful `mapME` succeeds pointwise. -/
theorem mapME_ok_get {α : Type} :
    ∀ (l : List (List Nat)) (f : List Nat → Except PyErr α) (res : List α)
      (i : Nat) (a : List Nat),
      mapME l f = Except.ok res → l[i]? = some a →
      ∃ y, f a = Except.ok y ∧ res[i]? = some y := by
  intro l
  induction l with
  | nil => intro f res i a h hi; simp at hi
  | cons x xs ih =>
    intro f res i a h hi
    unfold mapME at h
    split at h
    · exact absurd h (by simp)
    · rename_i y hfx
      split at h
      · exact absurd h (by simp)
      · rename_i ys hm
        rw [← Except.ok.inj h]
        cases i with
        | zero =>
          simp only [List.getElem?_cons_zero] at hi
          rw [← Option.some.inj hi]
          exact ⟨y, hfx, by simp⟩
        | succ n =>
          obtain ⟨y2, hy2, hr⟩ := ih f ys n a hm (by simpa using hi)
          exact ⟨y2, hy2, by simpa using hr⟩

/-- An element of the data slice `items[26 : 26+N]` is the token at the
corresponding absolute index of the token list. -/
theorem pySlice_getElem {α : Type} (l : List α) (b : Int) (i : Nat) (x : α)
    (hx : (pySlice l 26 b)[i]? = some x) : l[26 + i]? = some x := by
  unfold pySlice at hx
  have ha : pyIdx l.length 26 = min 26 l.length := by
    unfold pyIdx
    rw [if_neg (by norm_num : ¬ (26 : Int) < 0)]
    rfl
  rw [ha] at hx
  generalize pyIdx l.length b = bb at hx
  rw [List.getElem?_drop, List.getElem?_take] at hx
  by_cases hlt : min 26 l.length + i < bb
  · rw [if_pos hlt] at hx
    have hlen : min 26 l.length + i < l.length := by
      by_contra hge
      rw [List.getElem?_eq_none (by omega)] at hx
      cases hx
    have h26 : min 26 l.length = 26 := by omega
    rw [h26] at hx
    exact hx
  · rw [if_neg hlt] at hx
    cases hx

/-- C6 — confirmed.  For every record the decoder returns, every sample whose
token is an unsigned base-16 numeral (which by §4.2 every protocol sample
token is — it never carries a sign) equals that numeral's value in
millimeters divided by 1000 with true division, giving meters. -/
theorem c6_sample_conversion (d : List Nat) (h : Header) (i : Nat) (tok : List Nat) (n : Nat)
    (hd : decode_datagram d = Except.ok (some h))
    (ht : (splitOnSpace d)[26 + i]? = some tok)
    (hi : i < h.Data.length)
    (hn : unsignedHexVal tok = some n) :
    h.Data[i]? = some ((n : ℚ) / 1000) := by
  have hdf := decode_ok_some d h hd
  unfold decodeHeaderFields at hdf
  simp only [except_bind_ok, except_pure_ok] at hdf
  obtain ⟨t0, h0, toc, htoc, t1, h1c, cmd, hcmd, t2, h2v, ver, hver, t3, h3v, dev, hdev,
    t4, h4v, ser, hser, t5, h5v, st1, hst1, t6, h6v, st2, hst2, t7, h7v, tc, htc,
    t9, h9v, tss, htss, t10, h10v, tot, htot, t24, h24v, asw, hasw, t25, h25v, nod, hnod,
    data, hdata, hmk⟩ := hdf
  subst hmk
  have hi2 : i < data.length := hi
  have hll := mapME_ok_length _ _ _ hdata
  have hilt : i < (pySlice (splitOnSpace d) 26 (26 + nod)).length := by omega
  have hslice := List.getElem?_eq_getElem hilt
  obtain ⟨y, hy, hdatai⟩ := mapME_ok_get _ _ _ i _ hdata hslice
  have htok := pySlice_getElem (splitOnSpace d) (26 + nod) i _ hslice
  have htk := Option.some.inj (ht.symm.trans htok)
  rw [← htk] at hy
  unfold sampleValue at hy
  split at hy
  · rename_i m hpm
    rw [unsignedHexVal] at hn
    rw [parse_number_hexnum tok n hn] at hpm
    show data[i]? = some ((n : ℚ) / 1000)
    rw [hdatai]
    have hyv : y = ((m : ℚ)) / 1000 := (Except.ok.inj hy).symm
    rw [hyv, ← Option.some.inj hpm]
    norm_num
  · cases hy

/-- Witness for C6's theorem at the concrete valid frame, sample token `A`. -/
theorem c6_sample_conversion_w :
    goodHeader.Data[0]? = some (((10 : Nat) : ℚ) / 1000) :=
  c6_sample_conversion goodFrame goodHeader 0 [65] 10 rfl (by decide) (by decide) (by decide)

/-- Evaluating a Python slice whose endpoints are in range. -/
theorem pySlice_drop_take {α : Type} (l : List α) (a b : Int)
    (h0 : 0 ≤ a) (hab : a ≤ b) (hb : b ≤ (l.length : Int)) :
    pySlice l a b = (l.drop a.toNat).take (b.toNat - a.toNat) := by
  unfold pySlice pyIdx
  rw [if_neg (by omega), if_neg (by omega)]
  rw [min_eq_left (by omega), min_eq_left (by omega)]
  exact List.drop_take b.toNat a.toNat l

/-- C9 — confirmed.  On an 811-sample array and any view angle `0 < V ≤ 270`,
`clean_datagram_by_angle` returns exactly the contiguous window of length
`windowLength V = floor((811/270) * (V/2))` starting at
`windowStart V = 405 - windowLength V / 2`, decremented once more when the
window length is even; the window always fits inside the array, and for
`V = 180` the window length is 270. -/
theorem c9_angle_filter (ds : List ℚ) (V : ℚ)
    (hlen : ds.length = 811) (h0 : 0 < V) (h1 : V ≤ 270) :
    clean_datagram_by_angle ds V = (ds.drop (windowStart V)).take (windowLength V)
    ∧ (clean_datagram_by_angle ds V).length = windowLength V
    ∧ windowStart V + windowLength V ≤ 811
    ∧ windowLength 180 = 270 := by
  have hcast : ((datagram_size : Nat) : ℚ) / ((sensor_angle : Nat) : ℚ) = (811 : ℚ) / 270 := by
    simp only [datagram_size, sensor_angle]
    norm_num
  set q : ℚ := ((811 : ℚ) / 270) * (V / 2) with hqdef
  have hq0 : 0 ≤ q := by
    rw [hqdef]
    apply mul_nonneg
    · norm_num
    · linarith
  have hfl0 : 0 ≤ Int.floor q := Int.floor_nonneg.mpr hq0
  have hub : q ≤ 811 / 2 := by
    rw [hqdef]
    have h135 : V / 2 ≤ 135 := by linarith
    calc ((811 : ℚ) / 270) * (V / 2) ≤ ((811 : ℚ) / 270) * 135 := by
          apply mul_le_mul_of_nonneg_left h135
          norm_num
      _ = 811 / 2 := by norm_num
  have hfl405 : Int.floor q ≤ 405 := by
    have hlt : Int.floor q < 406 := by
      rw [Int.floor_lt]
      push_cast
      linarith
    omega
  set w : Nat := (Int.floor q).toNat with hwdef
  have hwi : (w : Int) = Int.floor q := Int.toNat_of_nonneg hfl0
  have hw405 : w ≤ 405 := by omega
  have hwq : windowLength V = w := by
    rw [hwdef, hqdef]
    simp only [windowLength]
  have hstart : windowStart V = 405 - w / 2 - (if w % 2 = 0 then 1 else 0) := by
    simp only [windowStart, hwq]
  have hpy : pyInt q = (w : Int) := by
    rw [pyInt, if_neg (not_lt.mpr hq0)]
    exact hwi.symm
  have hmid : ((ds.length : Int)).fdiv 2 = 405 := by
    rw [hlen]
    rw [Int.fdiv_eq_ediv _ (by norm_num)]
    decide
  have hwf : ((w : Int)).fdiv 2 = ((w / 2 : Nat) : Int) := by
    rw [Int.fdiv_eq_ediv _ (by norm_num)]
    omega
  have hwe : ((w : Int)).emod 2 = ((w % 2 : Nat) : Int) := by
    have h2 : ((w : Int)).emod 2 = (w : Int) % 2 := rfl
    omega
  have hkey : clean_datagram_by_angle ds V
      = (ds.drop (windowStart V)).take (windowLength V) := by
    simp only [clean_datagram_by_angle]
    rw [hcast, ← hqdef, hpy, hmid, hwf, hwe]
    rw [hstart, hwq]
    by_cases hpar : w % 2 = 0
    · rw [if_pos (show ((w % 2 : Nat) : Int) = 0 by rw [hpar]; rfl), if_pos hpar]
      rw [pySlice_drop_take ds _ _ (by omega) (by omega) (by omega)]
      congr 1
      · omega
      · congr 1
        omega
    · rw [if_neg (show ¬ ((w % 2 : Nat) : Int) = 0 by omega), if_neg hpar]
      rw [pySlice_drop_take ds _ _ (by omega) (by omega) (by omega)]
      congr 1
      · omega
      · congr 1
        omega
  refine ⟨hkey, ?_, ?_, ?_⟩
  · rw [hkey, List.length_take, List.length_drop, hlen, hwq, hstart]
    split <;> omega
  · rw [hwq, hstart]
    split <;> omega
  · have h270 : Int.floor (((811 : ℚ) / 270) * ((180 : ℚ) / 2)) = 270 := by
      rw [Int.floor_eq_iff]
      constructor
      · norm_num
      · norm_num
    simp only [windowLength, h270]
    rfl

/-- Witness for C9's theorem at view angle 180 on a concrete 811-sample array. -/
theorem c9_angle_filter_w :
    clean_datagram_by_angle (List.replicate 811 (0 : ℚ)) 180
      = ((List.replicate 811 (0 : ℚ)).drop (windowStart 180)).take (windowLength 180)
    ∧ (clean_datagram_by_angle (List.replicate 811 (0 : ℚ)) 180).length = windowLength 180
    ∧ windowStart 180 + windowLength 180 ≤ 811
    ∧ windowLength 180 = 270 :=
  c9_angle_filter (List.replicate 811 0) 180 (List.length_replicate 811 0) (by decide) (by decide)
